import Mathlib

/-!
Shallow embedding of `src/handlers/webdavHandler.ts` from the cf-r2-webdav
repository: a WebDAV interface over a flat key-addressed object store.

The store binding (R2 bucket) is modelled as an association list from keys to
stored objects; `get`/`head` return the first binding, `put` replaces the
binding for a key, `delete` removes it.  Store operations themselves are
modelled as never failing except where a claim is about failure handling
(`handleDelete` takes an explicit optional thrown-error message, modelling a
`bucket.delete` call that throws).  `Date` values are threaded as an opaque
`now : String` parameter.  HTML/XML rendering is an external collaborator in
the design, so response bodies carry the structured data handed to the
renderers rather than rendered text.
-/

/-- Association-list lookup, used both for `request.headers.get(name)` and for
JavaScript property access on the `customMetadata` record. -/
def assocGet : List (String × String) → String → Option String
  | [], _ => none
  | (k, v) :: rest, nm => if k = nm then some v else assocGet rest nm

/-- Boolean test that the first character list is a leading segment of the
second, mirroring string-prefix comparison on object keys. -/
def charsHasPre : List Char → List Char → Bool
  | [], _ => true
  | _ :: _, [] => false
  | p :: ps, c :: cs => p == c && charsHasPre ps cs

/-- Prefix test on strings via their character lists (the semantics of the
store's `prefix` list option). -/
def strHasPre (p s : String) : Bool := charsHasPre p.data s.data

/-- Boolean substring test on character lists. -/
def charsHasSub (needle : List Char) : List Char → Bool
  | [] => needle.isEmpty
  | c :: rest => charsHasPre needle (c :: rest) || charsHasSub needle rest

/-- JavaScript `hay.includes(needle)` on strings. -/
def hasSub (hay needle : String) : Bool := charsHasSub needle.data hay.data

/-- Split a character list on the slash character, as JavaScript
`s.split("/")` does (never returns an empty list). -/
def splitSlash (l : List Char) : List (List Char) :=
  l.foldr
    (fun c acc =>
      if c = '/' then [] :: acc
      else
        match acc with
        | [] => [[c]]
        | h :: t => (c :: h) :: t)
    [[]]

/-- JavaScript `s.split("/").pop()`: the last slash-separated segment. -/
def popSeg (s : String) : String := ⟨(splitSlash s.data).getLastD []⟩

/-- JavaScript `s.split("/").pop() || s`: the last segment, falling back to
the whole string when the last segment is empty (falsy). -/
def jsPopOr (s : String) : String := if popSeg s = "" then s else popSeg s

/-- JavaScript `url.endsWith("/")`. -/
def endsWithSlash (s : String) : Bool := s.data.getLast? == some '/'

/-- Stored object: byte content (kept abstract as a string), the
`httpMetadata.contentType` field, and the custom metadata record. -/
structure StoredObject where
  content : String
  contentType : Option String
  customMetadata : List (String × String)
deriving DecidableEq

/-- The flat object store: an association list from keys to objects. -/
abbrev Store := List (String × StoredObject)

/-- Store read (`bucket.get` / `bucket.head`): first binding for the key. -/
def Store.get : Store → String → Option StoredObject
  | [], _ => none
  | (k', v) :: rest, k => if k' = k then some v else Store.get rest k

/-- Store delete (`bucket.delete`): removes the binding for the key; absent
keys are not an error. -/
def Store.del : Store → String → Store
  | [], _ => []
  | (k', v) :: rest, k =>
    if k' = k then Store.del rest k else (k', v) :: Store.del rest k

/-- Store write (`bucket.put`): replaces the binding for the key. -/
def Store.put (st : Store) (k : String) (v : StoredObject) : Store :=
  (k, v) :: Store.del st k

/-- First stored binding whose key has `pre` as a string prefix (the object a
bounded `bucket.list({prefix, maxKeys: 1})` query would surface). -/
def Store.findFirst : Store → String → Option (String × StoredObject)
  | [], _ => none
  | kv :: rest, pre =>
    if strHasPre pre kv.1 then some kv else Store.findFirst rest pre

/-- Result shape of `bucket.list`: listed object keys and the delimiter-folded
key groups. -/
structure ListResult where
  objects : List String
  delimitedPrefixes : List String
deriving DecidableEq

/-- The `bucket.list({prefix, delimiter: "/", maxKeys: 1})` call issued by the
depth-0 PROPFIND branch: at most one entry is returned; a key whose remainder
past the prefix contains a slash is folded into a delimited prefix, any other
matching key is listed as an object.  Only emptiness of the result is consumed
by the handler, and emptiness agrees exactly with the store's prefix query. -/
def Store.list (st : Store) (pre : String) : ListResult :=
  match Store.findFirst st pre with
  | none => ⟨[], []⟩
  | some kv =>
    let rest := kv.1.data.drop pre.data.length
    if rest.any (fun c => c = '/') then
      ⟨[], [pre ++ ⟨rest.takeWhile (fun c => c ≠ '/')⟩ ++ "/"]⟩
    else
      ⟨[kv.1], []⟩

/-- Incoming HTTP request: method, full URL, headers and body. -/
structure Request where
  method : String
  url : String
  headers : List (String × String)
  body : String
deriving DecidableEq

/-- Characters after the first `://` separator of a URL (scheme and separator
stripped), empty when no separator occurs. -/
def afterSchemeSep : List Char → List Char
  | ':' :: '/' :: '/' :: rest => rest
  | _ :: rest => afterSchemeSep rest
  | [] => []

/-- Path component of an absolute URL: drop scheme and authority, keep from
the first slash; a URL with no path maps to the root path.  Query and
fragment components are not modelled (no request in this development carries
one). -/
def urlPathChars (u : String) : List Char :=
  let r := (afterSchemeSep u.data).dropWhile (fun c => c ≠ '/')
  if r.isEmpty then ['/'] else r

/-- Hexadecimal digit value, for percent-decoding. -/
def hexVal (c : Char) : Option Nat :=
  if '0' ≤ c ∧ c ≤ '9' then some (c.toNat - '0'.toNat)
  else if 'a' ≤ c ∧ c ≤ 'f' then some (c.toNat - 'a'.toNat + 10)
  else if 'A' ≤ c ∧ c ≤ 'F' then some (c.toNat - 'A'.toNat + 10)
  else none

/-- Percent-decoding of `%XX` escapes; malformed escapes are kept verbatim. -/
def percentDecodeL : List Char → List Char
  | '%' :: a :: b :: rest =>
    match hexVal a, hexVal b with
    | some x, some y => Char.ofNat (16 * x + y) :: percentDecodeL rest
    | _, _ => '%' :: percentDecodeL (a :: b :: rest)
  | c :: rest => c :: percentDecodeL rest
  | [] => []

/-- Collapse runs of consecutive slashes to a single slash; the flag records
whether the previously emitted character was a slash. -/
def collapseAux : Bool → List Char → List Char
  | _, [] => []
  | prevSlash, c :: rest =>
    if c = '/' then
      if prevSlash then collapseAux true rest
      else '/' :: collapseAux true rest
    else c :: collapseAux false rest

/-- Drop one leading slash. -/
def dropLeadSlash : List Char → List Char
  | '/' :: r => r
  | l => l

/-- Drop one trailing slash. -/
def dropTrailSlash (l : List Char) : List Char :=
  match l.getLast? with
  | some '/' => l.dropLast
  | _ => l

/-- Modelled from the spec: the Path Resolver (`make_resource_path` in the
missing `utils/webdavUtils.ts`) converts a request URL into a normalized,
store-relative key — percent-escapes decoded, duplicate slashes collapsed, no
leading slash, a single trailing slash dropped, the empty string denoting the
store root. -/
def resolvePath (u : String) : String :=
  ⟨dropTrailSlash (dropLeadSlash (collapseAux false (percentDecodeL (urlPathChars u))))⟩

/-- Modelled from the spec: `make_resource_path` applied to a request resolves
the request's URL. -/
def make_resource_path (req : Request) : String := resolvePath req.url

/-- Modelled from the spec: the `Destination` header must be parseable as an
absolute URL (`new URL(...)` succeeds exactly on strings opening with a URI
scheme — a letter, then scheme characters, then a colon); parsing returns the
URL, which resolves through the same Path Resolver as the request URL. -/
def isSchemeChar (c : Char) : Bool :=
  c.isAlphanum || c == '+' || c == '-' || c == '.'

/-- Modelled from the spec: JavaScript `new URL(s)`, returning `none` exactly
when the constructor would throw a `TypeError` (no leading scheme). -/
def parseURL (s : String) : Option String :=
  match s.data with
  | [] => none
  | c :: rest =>
    if c.isAlpha then
      match rest.dropWhile isSchemeChar with
      | ':' :: _ => some s
      | _ => none
    else none

/-- One entry of a directory listing page, as handed to the HTML renderer. -/
structure DirItem where
  name : String
  href : String
deriving DecidableEq

/-- One WebDAV property entry, exactly the record shape built by the handler
(lines 285–293 of the source) and handed to the multistatus renderer. -/
structure PropEntry where
  displayname : String
  creationdate : String
  getcontentlength : String
  getcontenttype : String
  getetag : String
  getlastmodified : String
  resourcetype : String
deriving DecidableEq

/-- One object yielded by the listing engine, carrying the fields the
handlers read (`key`, `customMetadata`, `displayname`) plus the metadata the
property mapping needs. -/
structure ListEntry where
  key : String
  customMetadata : List (String × String)
  displayname : Option String
  size : Nat
  etag : String
  lastModified : String
deriving DecidableEq

/-- Modelled from the spec: `listAll` (the Listing Engine of the missing
`utils/webdavUtils.ts`) enumerates the direct children of a collection key
with prefix-plus-delimiter semantics — nested paths fold into single
collection entries, the collection's own key is excluded, and Collection
Marker objects are excluded from the listing (a marker represents its parent
directory, not a visible child). -/
def listAll (st : Store) (key : String) : List ListEntry :=
  let pre := if key = "" then "" else key ++ "/"
  st.foldl
    (fun acc kv =>
      if strHasPre pre kv.1 && !(kv.1 == key) then
        let rest := kv.1.data.drop pre.data.length
        if rest.any (fun c => c = '/') then
          let child := pre ++ ⟨rest.takeWhile (fun c => c ≠ '/')⟩ ++ "/"
          if acc.any (fun e => e.key == child) then acc
          else acc ++ [⟨child, [("resourcetype", "collection")], none, 0, "", ""⟩]
        else if (⟨rest⟩ : String) = "_marker" then acc
        else acc ++ [⟨kv.1, kv.2.customMetadata, none, kv.2.content.data.length, "", ""⟩]
      else acc)
    []

/-- Modelled from the spec: `fromR2Object` (in the missing
`utils/webdavUtils.ts`) maps a listed object to its WebDAV property entry
(PROPFIND with depth other than 0 maps each listed resource to a property
entry). -/
def fromR2Object (e : ListEntry) : PropEntry :=
  { displayname :=
      match e.displayname with
      | some s => if s = "" then jsPopOr e.key else s
      | none => jsPopOr e.key
    creationdate := e.lastModified
    getcontentlength := toString e.size
    getcontenttype := ""
    getetag := e.etag
    getlastmodified := e.lastModified
    resourcetype :=
      if assocGet e.customMetadata "resourcetype" = some "collection" then "collection" else "" }

/-- The synthesized depth-0 collection entry built at lines 285–293 of the
source, with both `new Date().toUTCString()` calls threaded as `now`. -/
def synthEntry (resource_path now : String) : PropEntry :=
  { displayname := jsPopOr resource_path
    creationdate := now
    getcontentlength := "0"
    getcontenttype := ""
    getetag := "\"implicit-folder-" ++ resource_path ++ "\""
    getlastmodified := now
    resourcetype := "collection" }

/-- Response body: either plain text, a file body streamed from the store, or
the structured data handed to the (external) HTML/XML renderers. -/
inductive ResBody where
  | empty
  | text (s : String)
  | file (content : String)
  | html (title : String) (items : List DirItem)
  | xml (path : String) (props : List PropEntry)
  | errorHtml (title : String) (detail : String)
deriving DecidableEq

/-- HTTP response: status and body. -/
structure Response where
  status : Nat
  body : ResBody
deriving DecidableEq

/-- Outcome of a per-verb handler: a response together with the resulting
store, or a JavaScript exception (message and store at throw time) that
propagates to the top-level catch in `handleWebDAV`. -/
inductive HandlerResult where
  | ok (resp : Response) (st : Store)
  | thrown (msg : String) (st : Store)
deriving DecidableEq

/-- The OPTIONS handler (headers are not modelled; only the status). -/
def handleOptions (st : Store) : HandlerResult :=
  .ok ⟨200, .empty⟩ st

/-- The HEAD handler: probe the store, 404 when absent, 200 otherwise. -/
def handleHead (st : Store) (req : Request) : HandlerResult :=
  match Store.get st (make_resource_path req) with
  | none => .ok ⟨404, .empty⟩ st
  | some _ => .ok ⟨200, .empty⟩ st

/-- The file branch of GET: fetch the object, 404 with a plain-text body when
absent, 200 streaming the content otherwise. -/
def handleFile (st : Store) (resource_path : String) : HandlerResult :=
  match Store.get st resource_path with
  | none => .ok ⟨404, .text "Not Found"⟩ st
  | some o => .ok ⟨200, .file o.content⟩ st

/-- The directory branch of GET.  The items list is assembled exactly as in
the source (parent link first for non-root, then the listed children, each
tagged as folder or file — both ternary branches of the source compute the
same `href`).  Line 127 of the source then reads the identifier `bucketName`,
which is bound nowhere in the module, so evaluating the template literal
throws a ReferenceError before `generateHTML` is ever called; the handler
therefore always ends in a throw. -/
def handleDirectory (st : Store) (resource_path : String) : HandlerResult :=
  let parentItems : List DirItem :=
    if resource_path ≠ "" then [⟨"📁 ..", "../"⟩] else []
  let childItems : List DirItem :=
    (listAll st resource_path).map (fun e =>
      let isDirectory := assocGet e.customMetadata "resourcetype" = some "collection"
      let href := "/" ++ e.key
      let displayName :=
        match e.displayname with
        | some s => if s = "" then jsPopOr e.key else s
        | none => jsPopOr e.key
      ⟨(if isDirectory then "📁 " else "📄 ") ++ displayName, href⟩)
  let _items := parentItems ++ childItems
  .thrown "bucketName is not defined" st

/-- The GET handler: directory branch when the request URL ends in a slash,
file branch otherwise. -/
def handleGet (st : Store) (req : Request) : HandlerResult :=
  let resource_path := make_resource_path req
  if endsWithSlash req.url then handleDirectory st resource_path
  else handleFile st resource_path

/-- The PUT handler: store the request body under the resolved key with the
request's Content-Type (default `application/octet-stream` when the header is
absent or empty, matching the JavaScript falsy test). -/
def handlePut (st : Store) (req : Request) : HandlerResult :=
  let resource_path := make_resource_path req
  let ct :=
    match assocGet req.headers "Content-Type" with
    | none => "application/octet-stream"
    | some c => if c = "" then "application/octet-stream" else c
  .ok ⟨201, .text "Created"⟩ (Store.put st resource_path ⟨req.body, some ct, []⟩)

/-- The DELETE handler.  `delErr = none` models a `bucket.delete` call that
succeeds (removing the key, with absent keys not an error); `delErr = some
msg` models a call that throws with message `msg` before mutating, in which
case the catch block classifies the message text: "not found"-shaped messages
are swallowed as 204, anything else is 500. -/
def handleDelete (st : Store) (req : Request) (delErr : Option String) : HandlerResult :=
  let resource_path := make_resource_path req
  match delErr with
  | none => .ok ⟨204, .empty⟩ (Store.del st resource_path)
  | some msg =>
    if hasSub msg "not found" || hasSub msg "does not exist" || hasSub msg "404" then
      .ok ⟨204, .empty⟩ st
    else
      .ok ⟨500, .empty⟩ st

/-- The MKCOL handler: 405 at the root; otherwise the key is normalized with a
trailing slash and the marker object is written at `<key>/_$folder$` with
custom metadata `resourcetype = "collection"`, unless a marker already exists,
in which case the create is answered 201 without writing. -/
def handleMkcol (st : Store) (req : Request) : HandlerResult :=
  let resource_path := make_resource_path req
  if resource_path = "" then .ok ⟨405, .text "Method Not Allowed"⟩ st
  else
    let normalizedPath :=
      if endsWithSlash resource_path then resource_path else resource_path ++ "/"
    let markerFileKey := normalizedPath ++ "_$folder$"
    match Store.get st markerFileKey with
    | some _ => .ok ⟨201, .text "Alraedy Exist"⟩ st
    | none =>
      .ok ⟨201, .text "Created"⟩
        (Store.put st markerFileKey ⟨"", none, [("resourcetype", "collection")]⟩)

/-- The PROPFIND handler.  Depth other than "0" (absent or empty header
defaults to "infinity") maps every listed resource to a property entry.
Depth "0" issues a bounded list query with the resolved key itself as prefix
(no slash appended) and synthesizes a single collection entry when the query
returns anything, else 404. -/
def handlePropfind (st : Store) (now : String) (req : Request) : HandlerResult :=
  let resource_path := make_resource_path req
  let depth :=
    match assocGet req.headers "Depth" with
    | none => "infinity"
    | some d => if d = "" then "infinity" else d
  if depth ≠ "0" then
    .ok ⟨207, .xml resource_path ((listAll st resource_path).map fromR2Object)⟩ st
  else
    let listResult := Store.list st resource_path
    let folderExists :=
      decide (0 < listResult.delimitedPrefixes.length) ||
      decide (0 < listResult.objects.length)
    if folderExists then
      .ok ⟨207, .xml resource_path [synthEntry resource_path now]⟩ st
    else
      .ok ⟨404, .text "Not Found"⟩ st

/-- The COPY handler: 400 when the `Destination` header is missing (or empty,
the JavaScript falsy test); `new URL(destination)` sits outside the try block,
so an unparseable destination throws out of the handler; otherwise the source
object is read and rewritten at the destination key with content type and
custom metadata preserved. -/
def handleCopy (st : Store) (req : Request) : HandlerResult :=
  let sourcePath := make_resource_path req
  match assocGet req.headers "Destination" with
  | none => .ok ⟨400, .text "Bad Request: Destination header is missing"⟩ st
  | some d =>
    if d = "" then .ok ⟨400, .text "Bad Request: Destination header is missing"⟩ st
    else
      match parseURL d with
      | none => .thrown ("Invalid URL: " ++ d) st
      | some u =>
        let destinationPath := resolvePath u
        match Store.get st sourcePath with
        | none => .ok ⟨404, .text "Not Found"⟩ st
        | some src =>
          .ok ⟨201, .text "Created"⟩
            (Store.put st destinationPath ⟨src.content, src.contentType, src.customMetadata⟩)

/-- The MOVE handler: COPY semantics, then delete of the source key, 204. -/
def handleMove (st : Store) (req : Request) : HandlerResult :=
  let sourcePath := make_resource_path req
  match assocGet req.headers "Destination" with
  | none => .ok ⟨400, .text "Bad Request: Destination header is missing"⟩ st
  | some d =>
    if d = "" then .ok ⟨400, .text "Bad Request: Destination header is missing"⟩ st
    else
      match parseURL d with
      | none => .thrown ("Invalid URL: " ++ d) st
      | some u =>
        let destinationPath := resolvePath u
        match Store.get st sourcePath with
        | none => .ok ⟨404, .text "Not Found"⟩ st
        | some src =>
          .ok ⟨204, .text "No Content"⟩
            (Store.del
              (Store.put st destinationPath ⟨src.content, src.contentType, src.customMetadata⟩)
              sourcePath)

/-- The top-level dispatcher: route by method, and convert any exception that
escapes a handler into a 500 response with a rendered diagnostic body. -/
def handleWebDAV (req : Request) (now : String) (delErr : Option String)
    (st : Store) : Response × Store :=
  let r :=
    match req.method with
    | "OPTIONS" => handleOptions st
    | "HEAD" => handleHead st req
    | "GET" => handleGet st req
    | "PUT" => handlePut st req
    | "DELETE" => handleDelete st req delErr
    | "MKCOL" => handleMkcol st req
    | "PROPFIND" => handlePropfind st now req
    | "COPY" => handleCopy st req
    | "MOVE" => handleMove st req
    | _ => .ok ⟨405, .text "Method Not Allowed"⟩ st
  match r with
  | .ok resp st' => (resp, st')
  | .thrown msg st' => (⟨500, .errorHtml "Internal Server Error" msg⟩, st')

/-- Projection of the resulting store out of a handler outcome. -/
def HandlerResult.store : HandlerResult → Store
  | .ok _ st => st
  | .thrown _ st => st

theorem Store.get_del_self (st : Store) (k : String) :
    Store.get (Store.del st k) k = none := by
  induction st with
  | nil => rfl
  | cons kv rest ih =>
    obtain ⟨k', v⟩ := kv
    by_cases h : k' = k
    · simpa [Store.del, h] using ih
    · simpa [Store.del, Store.get, h] using ih

theorem Store.get_del_ne (st : Store) (k k' : String) (h : k' ≠ k) :
    Store.get (Store.del st k) k' = Store.get st k' := by
  have hkk' : k ≠ k' := fun hh => h hh.symm
  induction st with
  | nil => rfl
  | cons kv rest ih =>
    obtain ⟨a, v⟩ := kv
    by_cases ha : a = k
    · subst ha
      simpa [Store.del, Store.get, hkk'] using ih
    · by_cases ha' : a = k'
      · subst ha'
        simp [Store.del, Store.get, ha]
      · simpa [Store.del, Store.get, ha, ha'] using ih

theorem Store.get_put_self (st : Store) (k : String) (v : StoredObject) :
    Store.get (Store.put st k v) k = some v := by
  simp [Store.put, Store.get]

theorem Store.get_put_ne (st : Store) (k k' : String) (v : StoredObject) (h : k' ≠ k) :
    Store.get (Store.put st k v) k' = Store.get st k' := by
  have hk : k ≠ k' := fun hh => h hh.symm
  simp [Store.put, Store.get, hk, Store.get_del_ne st k k' h]

theorem charsHasPre_append (l t : List Char) : charsHasPre l (l ++ t) = true := by
  induction l with
  | nil => rfl
  | cons c cs ih => simp [charsHasPre, ih]

theorem strData_append (a b : String) : (a ++ b).data = a.data ++ b.data := rfl

theorem strHasPre_append (a t : String) : strHasPre a (a ++ t) = true := by
  unfold strHasPre
  rw [strData_append]
  exact charsHasPre_append a.data t.data

theorem findFirst_eq_none (st : Store) (pre : String)
    (h : ∀ kv ∈ st, strHasPre pre kv.1 = false) :
    Store.findFirst st pre = none := by
  induction st with
  | nil => rfl
  | cons kv rest ih =>
    have hkv := h kv (List.mem_cons_self kv rest)
    simpa [Store.findFirst, hkv] using
      ih (fun x hx => h x (List.mem_cons_of_mem kv hx))

theorem findFirst_ne_none (st : Store) (pre : String) (kv : String × StoredObject)
    (hmem : kv ∈ st) (hp : strHasPre pre kv.1 = true) :
    Store.findFirst st pre ≠ none := by
  induction st with
  | nil => cases hmem
  | cons a rest ih =>
    by_cases hpa : strHasPre pre a.1 = true
    · simp [Store.findFirst, hpa]
    · rcases List.mem_cons.mp hmem with heq | hmemRest
      · exact absurd (heq ▸ hp) hpa
      · simpa [Store.findFirst, hpa] using ih hmemRest

theorem propfind0_found (st : Store) (now : String) (req : Request) (K : String)
    (kv : String × StoredObject)
    (hres : make_resource_path req = K)
    (hdepth : assocGet req.headers "Depth" = some "0")
    (hfound : Store.findFirst st K = some kv) :
    handlePropfind st now req = .ok ⟨207, .xml K [synthEntry K now]⟩ st := by
  simp only [handlePropfind, Store.list, hres, hdepth, hfound]
  by_cases hc : '/' ∈ List.drop K.length kv.1.data <;> simp [hc]

theorem propfind0_missing (st : Store) (now : String) (req : Request) (K : String)
    (hres : make_resource_path req = K)
    (hdepth : assocGet req.headers "Depth" = some "0")
    (hnone : Store.findFirst st K = none) :
    handlePropfind st now req = .ok ⟨404, .text "Not Found"⟩ st := by
  simp only [handlePropfind, Store.list, hres, hdepth, hnone]
  simp

/-- C1: the spec claims GET on a collection URL (ending in `/`) returns a 200
HTML page of the depth-1 entries with a parent link first for non-root keys.
The code cannot do this: line 127 of the handler interpolates the unbound
identifier `bucketName` into the page title, so every directory GET throws a
ReferenceError which the top-level catch converts into a 500 error page.
Evaluated here at the spec's own scenario (PUT `a/b.txt`, then GET `/a/`). -/
theorem webdav_c1_collection_get_crashes :
    handleWebDAV ⟨"GET", "http://h/a/", [], ""⟩ "now" none
      [("a/b.txt", ⟨"hi", some "text/plain", []⟩)] =
      (⟨500, .errorHtml "Internal Server Error" "bucketName is not defined"⟩,
        [("a/b.txt", ⟨"hi", some "text/plain", []⟩)]) := rfl

/-- C2 counterexample: MKCOL on key `x` answers 201 but stores no object at
`x/_marker`; the marker is written at `x/_$folder$` instead, refuting the
claimed marker key. -/
theorem webdav_c2_marker_key_counterexample :
    (handleWebDAV ⟨"MKCOL", "http://h/x/", [], ""⟩ "now" none []).1.status = 201 ∧
    Store.get (handleWebDAV ⟨"MKCOL", "http://h/x/", [], ""⟩ "now" none []).2
      "x/_marker" = none ∧
    Store.get (handleWebDAV ⟨"MKCOL", "http://h/x/", [], ""⟩ "now" none []).2
      "x/_$folder$" = some ⟨"", none, [("resourcetype", "collection")]⟩ :=
  ⟨rfl, rfl, rfl⟩

/-- C2 amended: for every non-empty key, a successful MKCOL (no marker yet
present) stores exactly one zero-byte object, at `<collection-key>/_$folder$`,
with custom metadata mapping `resourcetype` to "collection", and stores
nothing else (the resulting store is precisely the old store plus that one
binding). -/
theorem webdav_c2_marker_key_amended (st : Store) (req : Request) (K : String)
    (hres : make_resource_path req = K) (hK : K ≠ "")
    (hslash : endsWithSlash K = false)
    (hmiss : Store.get st ((K ++ "/") ++ "_$folder$") = none) :
    handleMkcol st req =
      .ok ⟨201, .text "Created"⟩
        (Store.put st ((K ++ "/") ++ "_$folder$")
          ⟨"", none, [("resourcetype", "collection")]⟩) := by
  simp [handleMkcol, hres, hslash, hK, hmiss]

/-- Witness for the amended C2 at the concrete key `x` on the empty store. -/
theorem webdav_c2_marker_key_amended_witness :
    handleMkcol [] ⟨"MKCOL", "http://h/x/", [], ""⟩ =
      .ok ⟨201, .text "Created"⟩
        (Store.put [] (("x" ++ "/") ++ "_$folder$")
          ⟨"", none, [("resourcetype", "collection")]⟩) :=
  webdav_c2_marker_key_amended [] ⟨"MKCOL", "http://h/x/", [], ""⟩ "x"
    rfl (by decide) rfl rfl

/-- C3 counterexample: the key `tab` has no collection marker (under either
marker convention) and no descendant objects (`tab/` is not a string prefix of
the only stored key, `tabby.txt`), yet depth-0 PROPFIND answers 207, not the
claimed 404, because the probe uses `tab` itself as list prefix. -/
theorem webdav_c3_depth0_counterexample :
    strHasPre "tab/" "tabby.txt" = false ∧
    Store.get [("tabby.txt", ⟨"x", none, []⟩)] "tab/_marker" = none ∧
    Store.get [("tabby.txt", ⟨"x", none, []⟩)] "tab/_$folder$" = none ∧
    (handleWebDAV ⟨"PROPFIND", "http://h/tab", [("Depth", "0")], ""⟩ "now" none
      [("tabby.txt", ⟨"x", none, []⟩)]).1.status = 207 :=
  ⟨rfl, rfl, rfl, rfl⟩

/-- C3 amended: for every key K such that no stored object's key has K as a
string prefix (in particular, no marker and no descendants), PROPFIND with
`Depth: 0` returns 404; after a single PUT of a child object under K, the same
PROPFIND returns 207 whose multistatus body holds exactly one synthesized
collection entry for K. -/
theorem webdav_c3_depth0_amended (st : Store) (req reqP : Request)
    (now K nm : String)
    (hres : make_resource_path req = K)
    (hdepth : assocGet req.headers "Depth" = some "0")
    (hnone : ∀ kv ∈ st, strHasPre K kv.1 = false)
    (hresP : make_resource_path reqP = K ++ ("/" ++ nm)) :
    handlePropfind st now req = .ok ⟨404, .text "Not Found"⟩ st ∧
    handlePropfind (HandlerResult.store (handlePut st reqP)) now req =
      .ok ⟨207, .xml K [synthEntry K now]⟩
        (HandlerResult.store (handlePut st reqP)) := by
  constructor
  · exact propfind0_missing st now req K hres hdepth (findFirst_eq_none st K hnone)
  · have hff : Store.findFirst (HandlerResult.store (handlePut st reqP)) K ≠ none := by
      simp [handlePut, HandlerResult.store, hresP, Store.put, Store.findFirst,
        strHasPre_append]
    cases hfe : Store.findFirst (HandlerResult.store (handlePut st reqP)) K with
    | none => exact absurd hfe hff
    | some r =>
      exact propfind0_found (HandlerResult.store (handlePut st reqP)) now req K r
        hres hdepth hfe

/-- Witness for the amended C3: key `tab` on the empty store, then PUT of
`tab/file.txt`. -/
theorem webdav_c3_depth0_amended_witness :
    handlePropfind [] "now" ⟨"PROPFIND", "http://h/tab", [("Depth", "0")], ""⟩ =
      .ok ⟨404, .text "Not Found"⟩ [] ∧
    handlePropfind
      (HandlerResult.store (handlePut [] ⟨"PUT", "http://h/tab/file.txt", [], "hi"⟩))
      "now" ⟨"PROPFIND", "http://h/tab", [("Depth", "0")], ""⟩ =
      .ok ⟨207, .xml "tab" [synthEntry "tab" "now"]⟩
        (HandlerResult.store (handlePut [] ⟨"PUT", "http://h/tab/file.txt", [], "hi"⟩)) :=
  webdav_c3_depth0_amended [] ⟨"PROPFIND", "http://h/tab", [("Depth", "0")], ""⟩
    ⟨"PUT", "http://h/tab/file.txt", [], "hi"⟩ "now" "tab" "file.txt"
    rfl rfl (fun kv hkv => absurd hkv (List.not_mem_nil kv)) rfl

/-- C4 counterexample: COPY and MOVE with a present but unparseable
`Destination` header answer 500 (the `new URL` call sits outside the try block
and its TypeError escapes to the top-level catch), refuting the claimed 400. -/
theorem webdav_c4_destination_counterexample :
    (handleWebDAV ⟨"COPY", "http://h/a.txt", [("Destination", "no colon here")], ""⟩
      "now" none [("a.txt", ⟨"hi", none, []⟩)]).1.status = 500 ∧
    (handleWebDAV ⟨"MOVE", "http://h/a.txt", [("Destination", "no colon here")], ""⟩
      "now" none [("a.txt", ⟨"hi", none, []⟩)]).1.status = 500 :=
  ⟨rfl, rfl⟩

/-- C4 amended: a COPY or MOVE with the `Destination` header missing answers
400 with the store untouched; with the header present but not parseable as a
URL, the handler throws and the request is answered 500 by the top-level
catch, again with the store untouched — in neither case is any store write or
delete performed. -/
theorem webdav_c4_destination_amended (st : Store) (reqA reqB : Request)
    (d now : String)
    (hA : assocGet reqA.headers "Destination" = none)
    (hB : assocGet reqB.headers "Destination" = some d)
    (hd : d ≠ "") (hparse : parseURL d = none) (hmeth : reqB.method = "COPY") :
    handleCopy st reqA =
      .ok ⟨400, .text "Bad Request: Destination header is missing"⟩ st ∧
    handleMove st reqA =
      .ok ⟨400, .text "Bad Request: Destination header is missing"⟩ st ∧
    handleCopy st reqB = .thrown ("Invalid URL: " ++ d) st ∧
    handleMove st reqB = .thrown ("Invalid URL: " ++ d) st ∧
    handleWebDAV reqB now none st =
      (⟨500, .errorHtml "Internal Server Error" ("Invalid URL: " ++ d)⟩, st) := by
  have hc : handleCopy st reqB = .thrown ("Invalid URL: " ++ d) st := by
    simp [handleCopy, hB, hd, hparse]
  refine ⟨by simp [handleCopy, hA], by simp [handleMove, hA], hc,
    by simp [handleMove, hB, hd, hparse], ?_⟩
  simp [handleWebDAV, hmeth, hc]

/-- Witness for the amended C4: missing header on one request, destination
`no colon here` on the other. -/
theorem webdav_c4_destination_amended_witness :
    handleCopy [] ⟨"COPY", "http://h/a.txt", [], ""⟩ =
      .ok ⟨400, .text "Bad Request: Destination header is missing"⟩ [] ∧
    handleMove [] ⟨"COPY", "http://h/a.txt", [], ""⟩ =
      .ok ⟨400, .text "Bad Request: Destination header is missing"⟩ [] ∧
    handleCopy [] ⟨"COPY", "http://h/a.txt", [("Destination", "no colon here")], ""⟩ =
      .thrown ("Invalid URL: " ++ "no colon here") [] ∧
    handleMove [] ⟨"COPY", "http://h/a.txt", [("Destination", "no colon here")], ""⟩ =
      .thrown ("Invalid URL: " ++ "no colon here") [] ∧
    handleWebDAV ⟨"COPY", "http://h/a.txt", [("Destination", "no colon here")], ""⟩
      "now" none [] =
      (⟨500, .errorHtml "Internal Server Error" ("Invalid URL: " ++ "no colon here")⟩, []) :=
  webdav_c4_destination_amended [] ⟨"COPY", "http://h/a.txt", [], ""⟩
    ⟨"COPY", "http://h/a.txt", [("Destination", "no colon here")], ""⟩
    "no colon here" "now" rfl rfl (by decide) rfl rfl

/-- C5: DELETE is idempotent — for every store and key the first and the
second DELETE both answer 204 (object present or not) — and a thrown store
delete error is swallowed as 204 exactly when its message text contains a
"not found"-shaped phrase, any other error answering 500. -/
theorem webdav_c5_delete_idempotent (st : Store) (req : Request) (m₁ m₂ : String)
    (h₁ : (hasSub m₁ "not found" || hasSub m₁ "does not exist" || hasSub m₁ "404") = true)
    (h₂ : (hasSub m₂ "not found" || hasSub m₂ "does not exist" || hasSub m₂ "404") = false) :
    handleDelete st req none =
      .ok ⟨204, .empty⟩ (Store.del st (make_resource_path req)) ∧
    handleDelete (Store.del st (make_resource_path req)) req none =
      .ok ⟨204, .empty⟩
        (Store.del (Store.del st (make_resource_path req)) (make_resource_path req)) ∧
    handleDelete st req (some m₁) = .ok ⟨204, .empty⟩ st ∧
    handleDelete st req (some m₂) = .ok ⟨500, .empty⟩ st := by
  refine ⟨rfl, rfl, ?_, ?_⟩
  · simp [handleDelete, h₁]
  · simp [handleDelete, h₂]

/-- Witness for C5: deleting `a.txt` twice, a swallowed "object not found"
error, and a surfaced "access denied" error. -/
theorem webdav_c5_delete_idempotent_witness :
    handleDelete [("a.txt", ⟨"hi", none, []⟩)] ⟨"DELETE", "http://h/a.txt", [], ""⟩ none =
      .ok ⟨204, .empty⟩ [] ∧
    handleDelete [] ⟨"DELETE", "http://h/a.txt", [], ""⟩ none = .ok ⟨204, .empty⟩ [] ∧
    handleDelete [("a.txt", ⟨"hi", none, []⟩)] ⟨"DELETE", "http://h/a.txt", [], ""⟩
      (some "object not found") = .ok ⟨204, .empty⟩ [("a.txt", ⟨"hi", none, []⟩)] ∧
    handleDelete [("a.txt", ⟨"hi", none, []⟩)] ⟨"DELETE", "http://h/a.txt", [], ""⟩
      (some "access denied") = .ok ⟨500, .empty⟩ [("a.txt", ⟨"hi", none, []⟩)] := by
  have h := webdav_c5_delete_idempotent [("a.txt", ⟨"hi", none, []⟩)]
    ⟨"DELETE", "http://h/a.txt", [], ""⟩ "object not found" "access denied"
    (by decide) (by decide)
  exact ⟨h.1, h.2.1, h.2.2.1, h.2.2.2⟩

/-- C6: for distinct keys A and B with an object at A, a successful MOVE of A
to destination B answers 204, after which GET on A answers 404 and GET on B
answers 200 with A's original content. -/
theorem webdav_c6_move_then_get (st : Store) (reqM reqA reqB : Request)
    (A B d : String) (o : StoredObject)
    (hsrc : make_resource_path reqM = A)
    (hdest : assocGet reqM.headers "Destination" = some d) (hd : d ≠ "")
    (hparse : parseURL d = some d) (hpath : resolvePath d = B)
    (hAB : A ≠ B) (hobj : Store.get st A = some o)
    (hgA : make_resource_path reqA = A) (hgAslash : endsWithSlash reqA.url = false)
    (hgB : make_resource_path reqB = B) (hgBslash : endsWithSlash reqB.url = false) :
    handleMove st reqM =
      .ok ⟨204, .text "No Content"⟩
        (Store.del (Store.put st B ⟨o.content, o.contentType, o.customMetadata⟩) A) ∧
    handleGet (Store.del (Store.put st B ⟨o.content, o.contentType, o.customMetadata⟩) A)
      reqA =
      .ok ⟨404, .text "Not Found"⟩
        (Store.del (Store.put st B ⟨o.content, o.contentType, o.customMetadata⟩) A) ∧
    handleGet (Store.del (Store.put st B ⟨o.content, o.contentType, o.customMetadata⟩) A)
      reqB =
      .ok ⟨200, .file o.content⟩
        (Store.del (Store.put st B ⟨o.content, o.contentType, o.customMetadata⟩) A) := by
  have hBA : B ≠ A := fun hh => hAB hh.symm
  refine ⟨?_, ?_, ?_⟩
  · simp [handleMove, hsrc, hdest, hd, hparse, hpath, hobj]
  · simp only [handleGet, hgA, hgAslash]
    simp [handleFile, Store.get_del_self]
  · simp only [handleGet, hgB, hgBslash]
    simp [handleFile,
      Store.get_del_ne (Store.put st B ⟨o.content, o.contentType, o.customMetadata⟩) A B hBA,
      Store.get_put_self]

/-- Witness for C6: MOVE `a.txt` to `b.txt` on a one-object store, then GET
both keys. -/
theorem webdav_c6_move_then_get_witness :
    handleMove [("a.txt", ⟨"hi", some "text/plain", [("m", "v")]⟩)]
      ⟨"MOVE", "http://h/a.txt", [("Destination", "http://h/b.txt")], ""⟩ =
      .ok ⟨204, .text "No Content"⟩
        (Store.del (Store.put [("a.txt", ⟨"hi", some "text/plain", [("m", "v")]⟩)]
          "b.txt" ⟨"hi", some "text/plain", [("m", "v")]⟩) "a.txt") ∧
    handleGet (Store.del (Store.put [("a.txt", ⟨"hi", some "text/plain", [("m", "v")]⟩)]
      "b.txt" ⟨"hi", some "text/plain", [("m", "v")]⟩) "a.txt")
      ⟨"GET", "http://h/a.txt", [], ""⟩ =
      .ok ⟨404, .text "Not Found"⟩
        (Store.del (Store.put [("a.txt", ⟨"hi", some "text/plain", [("m", "v")]⟩)]
          "b.txt" ⟨"hi", some "text/plain", [("m", "v")]⟩) "a.txt") ∧
    handleGet (Store.del (Store.put [("a.txt", ⟨"hi", some "text/plain", [("m", "v")]⟩)]
      "b.txt" ⟨"hi", some "text/plain", [("m", "v")]⟩) "a.txt")
      ⟨"GET", "http://h/b.txt", [], ""⟩ =
      .ok ⟨200, .file "hi"⟩
        (Store.del (Store.put [("a.txt", ⟨"hi", some "text/plain", [("m", "v")]⟩)]
          "b.txt" ⟨"hi", some "text/plain", [("m", "v")]⟩) "a.txt") :=
  webdav_c6_move_then_get [("a.txt", ⟨"hi", some "text/plain", [("m", "v")]⟩)]
    ⟨"MOVE", "http://h/a.txt", [("Destination", "http://h/b.txt")], ""⟩
    ⟨"GET", "http://h/a.txt", [], ""⟩ ⟨"GET", "http://h/b.txt", [], ""⟩
    "a.txt" "b.txt" "http://h/b.txt" ⟨"hi", some "text/plain", [("m", "v")]⟩
    rfl rfl (by decide) rfl rfl (by decide) rfl rfl rfl rfl rfl

/-- C7: for distinct keys A and B with an object at A, a successful COPY of A
to B answers 201 and writes at B an object with A's content, content type and
custom metadata, while the object at A is unchanged. -/
theorem webdav_c7_copy_preserves (st : Store) (req : Request)
    (A B d : String) (o : StoredObject)
    (hsrc : make_resource_path req = A)
    (hdest : assocGet req.headers "Destination" = some d) (hd : d ≠ "")
    (hparse : parseURL d = some d) (hpath : resolvePath d = B)
    (hAB : A ≠ B) (hobj : Store.get st A = some o) :
    handleCopy st req =
      .ok ⟨201, .text "Created"⟩
        (Store.put st B ⟨o.content, o.contentType, o.customMetadata⟩) ∧
    Store.get (Store.put st B ⟨o.content, o.contentType, o.customMetadata⟩) A = some o ∧
    Store.get (Store.put st B ⟨o.content, o.contentType, o.customMetadata⟩) B =
      some ⟨o.content, o.contentType, o.customMetadata⟩ := by
  refine ⟨?_, ?_, ?_⟩
  · simp [handleCopy, hsrc, hdest, hd, hparse, hpath, hobj]
  · rw [Store.get_put_ne st B A ⟨o.content, o.contentType, o.customMetadata⟩ hAB, hobj]
  · exact Store.get_put_self st B ⟨o.content, o.contentType, o.customMetadata⟩

/-- Witness for C7: COPY `a.txt` to `c.txt` on a one-object store. -/
theorem webdav_c7_copy_preserves_witness :
    handleCopy [("a.txt", ⟨"hi", some "text/plain", [("m", "v")]⟩)]
      ⟨"COPY", "http://h/a.txt", [("Destination", "http://h/c.txt")], ""⟩ =
      .ok ⟨201, .text "Created"⟩
        (Store.put [("a.txt", ⟨"hi", some "text/plain", [("m", "v")]⟩)]
          "c.txt" ⟨"hi", some "text/plain", [("m", "v")]⟩) ∧
    Store.get (Store.put [("a.txt", ⟨"hi", some "text/plain", [("m", "v")]⟩)]
      "c.txt" ⟨"hi", some "text/plain", [("m", "v")]⟩) "a.txt" =
      some ⟨"hi", some "text/plain", [("m", "v")]⟩ ∧
    Store.get (Store.put [("a.txt", ⟨"hi", some "text/plain", [("m", "v")]⟩)]
      "c.txt" ⟨"hi", some "text/plain", [("m", "v")]⟩) "c.txt" =
      some ⟨"hi", some "text/plain", [("m", "v")]⟩ :=
  webdav_c7_copy_preserves [("a.txt", ⟨"hi", some "text/plain", [("m", "v")]⟩)]
    ⟨"COPY", "http://h/a.txt", [("Destination", "http://h/c.txt")], ""⟩
    "a.txt" "c.txt" "http://h/c.txt" ⟨"hi", some "text/plain", [("m", "v")]⟩
    rfl rfl (by decide) rfl rfl (by decide) rfl

/-- C8: MKCOL is idempotent — for every non-empty key, two MKCOLs in a row
both answer 201 (the second finds the marker and is not an error) and the
store after the second call equals the store after the first. -/
theorem webdav_c8_mkcol_idempotent (st : Store) (req : Request) (K : String)
    (hres : make_resource_path req = K) (hK : K ≠ "")
    (hslash : endsWithSlash K = false) :
    ∃ st₁ b₁ b₂, handleMkcol st req = .ok ⟨201, b₁⟩ st₁ ∧
      handleMkcol st₁ req = .ok ⟨201, b₂⟩ st₁ := by
  cases hm : Store.get st ((K ++ "/") ++ "_$folder$") with
  | some v =>
    exact ⟨st, .text "Alraedy Exist", .text "Alraedy Exist",
      by simp [handleMkcol, hres, hslash, hK, hm],
      by simp [handleMkcol, hres, hslash, hK, hm]⟩
  | none =>
    refine ⟨Store.put st ((K ++ "/") ++ "_$folder$")
      ⟨"", none, [("resourcetype", "collection")]⟩,
      .text "Created", .text "Alraedy Exist", ?_, ?_⟩
    · simp [handleMkcol, hres, hslash, hK, hm]
    · simp [handleMkcol, hres, hslash, hK, Store.get_put_self]

/-- Witness for C8: MKCOL `x` twice on the empty store. -/
theorem webdav_c8_mkcol_idempotent_witness :
    ∃ st₁ b₁ b₂, handleMkcol [] ⟨"MKCOL", "http://h/x/", [], ""⟩ = .ok ⟨201, b₁⟩ st₁ ∧
      handleMkcol st₁ ⟨"MKCOL", "http://h/x/", [], ""⟩ = .ok ⟨201, b₂⟩ st₁ :=
  webdav_c8_mkcol_idempotent [] ⟨"MKCOL", "http://h/x/", [], ""⟩ "x"
    rfl (by decide) rfl

/-- C9: depth-0 PROPFIND answers 207 with a single synthesized collection
entry (resourcetype "collection", content length "0") for any key K as soon
as some stored object's key has K as a string prefix — the probe is a prefix
list query on K itself, appending no slash and consulting neither marker nor
direct object lookup, so it also fires when K names a plain file or is merely
a proper string prefix of an unrelated key. -/
theorem webdav_c9_depth0_string_probe (st : Store) (req : Request)
    (now K : String) (kv : String × StoredObject)
    (hres : make_resource_path req = K)
    (hdepth : assocGet req.headers "Depth" = some "0")
    (hmem : kv ∈ st) (hpre : strHasPre K kv.1 = true) :
    handlePropfind st now req = .ok ⟨207, .xml K [synthEntry K now]⟩ st ∧
    (synthEntry K now).resourcetype = "collection" ∧
    (synthEntry K now).getcontentlength = "0" := by
  refine ⟨?_, rfl, rfl⟩
  cases hfe : Store.findFirst st K with
  | none => exact absurd hfe (findFirst_ne_none st K kv hmem hpre)
  | some r => exact propfind0_found st now req K r hres hdepth hfe

/-- Witness for C9 at the claim's own example: K = `tab` while only
`tabby.txt` is stored — no child, no marker, yet a synthesized collection. -/
theorem webdav_c9_depth0_string_probe_witness :
    handlePropfind [("tabby.txt", ⟨"x", none, []⟩)] "now"
      ⟨"PROPFIND", "http://h/tab", [("Depth", "0")], ""⟩ =
      .ok ⟨207, .xml "tab" [synthEntry "tab" "now"]⟩
        [("tabby.txt", ⟨"x", none, []⟩)] ∧
    (synthEntry "tab" "now").resourcetype = "collection" ∧
    (synthEntry "tab" "now").getcontentlength = "0" :=
  webdav_c9_depth0_string_probe [("tabby.txt", ⟨"x", none, []⟩)]
    ⟨"PROPFIND", "http://h/tab", [("Depth", "0")], ""⟩ "now" "tab"
    ("tabby.txt", ⟨"x", none, []⟩) rfl rfl (by decide) rfl

/-- C10: a MOVE whose destination resolves to the source key A (object
present at A) answers 204 and destroys the resource — the handler rewrites A
and then deletes A, so afterwards no object remains at A and GET on A answers
404. -/
theorem webdav_c10_move_to_self_destroys (st : Store) (req reqG : Request)
    (A d : String) (o : StoredObject)
    (hsrc : make_resource_path req = A)
    (hdest : assocGet req.headers "Destination" = some d) (hd : d ≠ "")
    (hparse : parseURL d = some d) (hpath : resolvePath d = A)
    (hobj : Store.get st A = some o)
    (hgA : make_resource_path reqG = A) (hgs : endsWithSlash reqG.url = false) :
    handleMove st req =
      .ok ⟨204, .text "No Content"⟩
        (Store.del (Store.put st A ⟨o.content, o.contentType, o.customMetadata⟩) A) ∧
    Store.get (Store.del (Store.put st A ⟨o.content, o.contentType, o.customMetadata⟩) A)
      A = none ∧
    handleGet (Store.del (Store.put st A ⟨o.content, o.contentType, o.customMetadata⟩) A)
      reqG =
      .ok ⟨404, .text "Not Found"⟩
        (Store.del (Store.put st A ⟨o.content, o.contentType, o.customMetadata⟩) A) := by
  refine ⟨?_, Store.get_del_self _ A, ?_⟩
  · simp [handleMove, hsrc, hdest, hd, hparse, hpath, hobj]
  · simp only [handleGet, hgA, hgs]
    simp [handleFile, Store.get_del_self]

/-- Witness for C10: MOVE `a.txt` onto itself, then GET it. -/
theorem webdav_c10_move_to_self_destroys_witness :
    handleMove [("a.txt", ⟨"hi", some "text/plain", []⟩)]
      ⟨"MOVE", "http://h/a.txt", [("Destination", "http://h/a.txt")], ""⟩ =
      .ok ⟨204, .text "No Content"⟩
        (Store.del (Store.put [("a.txt", ⟨"hi", some "text/plain", []⟩)]
          "a.txt" ⟨"hi", some "text/plain", []⟩) "a.txt") ∧
    Store.get (Store.del (Store.put [("a.txt", ⟨"hi", some "text/plain", []⟩)]
      "a.txt" ⟨"hi", some "text/plain", []⟩) "a.txt") "a.txt" = none ∧
    handleGet (Store.del (Store.put [("a.txt", ⟨"hi", some "text/plain", []⟩)]
      "a.txt" ⟨"hi", some "text/plain", []⟩) "a.txt")
      ⟨"GET", "http://h/a.txt", [], ""⟩ =
      .ok ⟨404, .text "Not Found"⟩
        (Store.del (Store.put [("a.txt", ⟨"hi", some "text/plain", []⟩)]
          "a.txt" ⟨"hi", some "text/plain", []⟩) "a.txt") :=
  webdav_c10_move_to_self_destroys [("a.txt", ⟨"hi", some "text/plain", []⟩)]
    ⟨"MOVE", "http://h/a.txt", [("Destination", "http://h/a.txt")], ""⟩
    ⟨"GET", "http://h/a.txt", [], ""⟩ "a.txt" "http://h/a.txt"
    ⟨"hi", some "text/plain", []⟩ rfl rfl (by decide) rfl rfl rfl rfl rfl
